import Mathlib

/-!
# Verification of the gemini-mcp-rust streaming pipeline

A shallow embedding of `src/gemini.rs`: the launch-phase validation, the
argument builder, the streaming event dispatcher (`execute_gemini`'s read
loop), and the result classifier, together with theorems about them.

The external JSON parser (`serde_json`) is not reimplemented: each stream
line is paired with its parse outcome, which the dispatcher consumes exactly
as the Rust code consumes `serde_json::from_str`'s result.
-/

namespace GeminiMcp

/-- An untyped `serde_json::Value` stored verbatim in the all-events buffer;
its internal structure is never interpreted by the dispatcher. -/
structure JsonValue where
  raw : String
deriving DecidableEq, Repr

/-- `GeminiEvent` (gemini.rs lines 17-26): one parsed line of child output.
The `extra` bag models the `#[serde(flatten)]` map of unrecognized fields;
it is preserved but never read. -/
structure GeminiEvent where
  event_type : Option String
  role : Option String
  content : Option String
  session_id : Option String
  extra : List (String × JsonValue)
deriving DecidableEq, Repr

/-- `GeminiResult` (gemini.rs lines 29-40): the operation's outcome. -/
structure GeminiResult where
  success : Bool
  session_id : Option String
  agent_messages : Option String
  all_messages : Option (List JsonValue)
  error : Option String
deriving DecidableEq, Repr

/-- `GeminiError` (error.rs lines 6-30). -/
inductive GeminiError where
  | WorkspaceNotFound (path : String)
  | GeminiNotFound
  | ProcessSpawnError (msg : String)
  | JsonParseError (msg : String)
  | NoSessionId
  | NoAgentMessages (msg : String)
  | ProcessTimeout
  | Other (msg : String)
deriving DecidableEq, Repr

/-- Wire-level field names emitted when a `GeminiResult` is serialized,
following the serde attributes (gemini.rs lines 29-40): `session_id` is
renamed to `SESSION_ID`, and every `Option` field is skipped when `None`. -/
def serializedKeys (r : GeminiResult) : List String :=
  ["success"]
    ++ (if r.session_id.isSome then ["SESSION_ID"] else [])
    ++ (if r.agent_messages.isSome then ["agent_messages"] else [])
    ++ (if r.all_messages.isSome then ["all_messages"] else [])
    ++ (if r.error.isSome then ["error"] else [])

/-- Rust `str::trim`: remove whitespace from both ends of the line. -/
def rsTrim (s : String) : String :=
  String.mk (((s.data.dropWhile Char.isWhitespace).reverse.dropWhile Char.isWhitespace).reverse)

/-- Rust `str::contains`: `needle` occurs as a contiguous substring of
`hay`. -/
def strContains (hay needle : String) : Bool :=
  decide (needle.data <:+: hay.data)

/-- `DEPRECATED_PROMPT_WARNING` (gemini.rs line 74). -/
def DEPRECATED_PROMPT_WARNING : String :=
  "The --prompt (-p) flag has been deprecated"

/-- `is_turn_completed` (gemini.rs lines 69-71). -/
def is_turn_completed (event : GeminiEvent) : Bool :=
  event.event_type == some "turn.completed"

/-! ## Launch phase (gemini.rs lines 85-135)

`execute_gemini` first checks the working directory, then resolves the
executable through `which`, then spawns the child. The filesystem and the
search path are modelled as inputs (`cwdExists`, `whichGemini`); the trace
records which effectful stages were reached. -/

/-- Effectful stages of the launch phase, in the order the code runs them. -/
inductive LaunchStep where
  | resolveExecutable
  | spawnChild
deriving DecidableEq, Repr

/-- The launch phase of `execute_gemini` (gemini.rs lines 85-135): validate
the working directory, resolve the executable, spawn. Returns the resolved
path (or the propagated error) together with the list of effectful stages
that were executed. -/
def launchPhase (cwdExists : Bool) (cwdPath : String)
    (whichGemini : Option String) :
    Except GeminiError String × List LaunchStep :=
  if !cwdExists then
    (Except.error (GeminiError.WorkspaceNotFound cwdPath), [])
  else
    match whichGemini with
    | none => (Except.error GeminiError.GeminiNotFound, [LaunchStep.resolveExecutable])
    | some p => (Except.ok p, [LaunchStep.resolveExecutable, LaunchStep.spawnChild])

/-- The argument builder (gemini.rs lines 101-125), written as the same
sequence of conditional pushes the code performs. -/
def buildArgs (prompt : String) (sandbox : Bool) (model : Option String)
    (session_id : Option String) : List String :=
  let args := ["--prompt", prompt, "-o", "stream-json"]
  let args := if sandbox then args ++ ["--sandbox"] else args
  let args :=
    match model with
    | some m => if !m.isEmpty then args ++ ["--model", m] else args
    | none => args
  match session_id with
  | some sid => if !sid.isEmpty then args ++ ["--resume", sid] else args
  | none => args

/-- The argument vector as the specification words it: the fixed prefix,
then each optional segment contributed iff its condition holds. -/
def buildArgsSpec (prompt : String) (sandbox : Bool) (model : Option String)
    (session_id : Option String) : List String :=
  ["--prompt", prompt, "-o", "stream-json"]
    ++ (if sandbox then ["--sandbox"] else [])
    ++ (match (Option.filter (fun m => !m.isEmpty) model) with
        | some m => ["--model", m]
        | none => [])
    ++ (match (Option.filter (fun sid => !sid.isEmpty) session_id) with
        | some sid => ["--resume", sid]
        | none => [])

/-! ## The streaming event dispatcher (gemini.rs lines 141-218) -/

/-- The outcome of `serde_json::from_str::<GeminiEvent>` on a trimmed line,
supplied by the stream model. On success, `value` is the outcome of the
independent `serde_json::from_str::<serde_json::Value>` reparse
(gemini.rs lines 164-169), which the code tolerates failing. -/
inductive LineParse where
  | ok (event : GeminiEvent) (value : Option JsonValue)
  | err (detail : String)
deriving DecidableEq, Repr

/-- One observation of `reader.next_line()`: either a line (with its parse
outcome) or an I/O error carrying its rendered message. End of stream is
the end of the list. -/
inductive StreamItem where
  | line (raw : String) (parse : LineParse)
  | ioError (msg : String)
deriving DecidableEq, Repr

/-- The dispatcher's mutable accumulation state (gemini.rs lines 141-148). -/
structure LoopState where
  all_messages : Option (List JsonValue)
  agent_messages : String
  session_id_result : Option String
  error_messages : List String
deriving DecidableEq, Repr

/-- The state as initialized before the loop (gemini.rs lines 141-148):
the all-events buffer exists only when requested. -/
def initState (return_all_messages : Bool) : LoopState :=
  { all_messages := if return_all_messages then some [] else none
    agent_messages := ""
    session_id_result := none
    error_messages := [] }

/-- Backlog insertion on the parse-failure path (gemini.rs lines 197-202):
push the diagnostic, then drop the oldest entry if the length exceeds 10. -/
def pushCapped (q : List String) (msg : String) : List String :=
  let q' := q ++ [msg]
  if q'.length > 10 then q'.tail else q'

/-- One iteration of the read loop (gemini.rs lines 153-215) on one stream
observation: returns the updated state and whether the loop stops. -/
def stepItem (s : LoopState) : StreamItem → LoopState × Bool
  | StreamItem.line raw p =>
    let line := rsTrim raw
    if line.isEmpty then (s, false)
    else
      match p with
      | LineParse.ok event value =>
        let s1 :=
          match s.all_messages, value with
          | some msgs, some v => { s with all_messages := some (msgs ++ [v]) }
          | _, _ => s
        let s2 :=
          if event.session_id.isSome then
            { s1 with session_id_result := event.session_id }
          else s1
        let s3 :=
          if event.event_type == some "message" && event.role == some "assistant" then
            match event.content with
            | some c =>
              if !strContains c DEPRECATED_PROMPT_WARNING then
                { s2 with agent_messages := s2.agent_messages ++ c }
              else s2
            | none => s2
          else s2
        (s3, is_turn_completed event)
      | LineParse.err detail =>
        let diag := "[json decode error] " ++ detail ++ ": " ++ line
        ({ s with error_messages := pushCapped s.error_messages diag }, false)
  | StreamItem.ioError msg =>
    ({ s with error_messages := s.error_messages ++ ["[io error] " ++ msg] }, true)

/-- The read loop (gemini.rs lines 151-217): fold `stepItem` over the
stream, stopping early when an iteration signals stop (turn completion or
I/O error); the end of the list is end of stream. -/
def runLoop (s : LoopState) : List StreamItem → LoopState
  | [] => s
  | i :: rest =>
    let r := stepItem s i
    if r.2 then r.1 else runLoop r.1 rest

/-- Whether one stream observation makes the loop stop; this does not
depend on the accumulated state. -/
def stopsItem : StreamItem → Bool
  | StreamItem.line raw p =>
    if (rsTrim raw).isEmpty then false
    else
      match p with
      | LineParse.ok event _ => is_turn_completed event
      | LineParse.err _ => false
  | StreamItem.ioError _ => true

/-- The prefix of the stream the loop actually processes: everything up to
and including the first stopping observation. -/
def processed : List StreamItem → List StreamItem
  | [] => []
  | i :: rest => if stopsItem i then [i] else i :: processed rest

/-- The session identifier carried by one stream observation, as the
dispatcher sees it (blank, malformed and I/O observations carry none). -/
def sessionOf : StreamItem → Option String
  | StreamItem.line raw (LineParse.ok event _) =>
    if (rsTrim raw).isEmpty then none else event.session_id
  | _ => none

/-- Last-write-wins accumulation of session identifiers over a stream
prefix, starting from a default. -/
def lastWins (d : Option String) (items : List StreamItem) : Option String :=
  items.foldl (fun acc i => match sessionOf i with | some v => some v | none => acc) d

/-! ## The result classifier (gemini.rs lines 228-265) -/

/-- The result classifier (gemini.rs lines 228-265): build the outcome from
the timeout flag, the accumulated state and the all-events request flag. -/
def buildResult (timedOut : Bool) (st : LoopState)
    (return_all_messages : Bool) : GeminiResult :=
  let error_suffix := String.intercalate "\n" st.error_messages
  let base : GeminiResult :=
    { success := true
      session_id := st.session_id_result
      agent_messages := none
      all_messages := none
      error := none }
  let r :=
    if timedOut then
      { base with success := false
                  error := some ("Process timeout. " ++ error_suffix) }
    else if st.session_id_result.isNone then
      { base with success := false
                  error := some ("Failed to get `SESSION_ID` from the gemini session.\n\n"
                    ++ error_suffix) }
    else if st.agent_messages.isEmpty then
      { base with success := false
                  error := some ("Failed to retrieve `agent_messages` data from the Gemini session. This might be due to Gemini performing a tool call. You can continue using the `SESSION_ID` to proceed with the conversation.\n\n"
                    ++ error_suffix) }
    else
      { base with agent_messages := some st.agent_messages }
  if return_all_messages then { r with all_messages := st.all_messages } else r

/-! ## Basic lemmas about the dispatcher loop -/

lemma stepItem_snd (s : LoopState) (i : StreamItem) :
    (stepItem s i).2 = stopsItem i := by
  cases i with
  | line raw p =>
    cases p <;> simp only [stepItem, stopsItem] <;> split <;> rfl
  | ioError m => rfl

lemma runLoop_cons (s : LoopState) (i : StreamItem) (rest : List StreamItem) :
    runLoop s (i :: rest)
      = if stopsItem i then (stepItem s i).1 else runLoop (stepItem s i).1 rest := by
  simp only [runLoop, stepItem_snd]

lemma runLoop_eq_foldl (s : LoopState) (items : List StreamItem) :
    runLoop s items
      = List.foldl (fun t i => (stepItem t i).1) s (processed items) := by
  induction items generalizing s with
  | nil => rfl
  | cons i rest ih =>
    rw [runLoop_cons, processed]
    by_cases h : stopsItem i
    · simp [h, runLoop]
    · simp [h, ih]

/-! ## C4 and C5 -/

/-- **C4.** When the working directory does not exist, the launch phase of
`execute_gemini` returns the `WorkspaceNotFound` error naming that path, and
its stage trace is empty: the executable is never resolved and no child
process is spawned, so no other step of the operation runs. -/
theorem workspace_check_first (cwdPath : String) (whichGemini : Option String) :
    launchPhase false cwdPath whichGemini
      = (Except.error (GeminiError.WorkspaceNotFound cwdPath), []) := by
  rfl

/-- **C5.** The argument vector built for the child is exactly, in order:
`--prompt`, the prompt text, `-o`, `stream-json`, then `--sandbox` iff the
sandbox flag is true, then `--model` and the model name iff the model is
provided and non-empty, then `--resume` and the session id iff the session
id is provided and non-empty, and nothing else. -/
theorem buildArgs_exact (prompt : String) (sandbox : Bool)
    (model : Option String) (session_id : Option String) :
    buildArgs prompt sandbox model session_id
      = buildArgsSpec prompt sandbox model session_id := by
  cases model <;> cases session_id <;> cases sandbox <;>
    simp [buildArgs, buildArgsSpec, Option.filter] <;>
    split <;> simp_all <;> split <;> simp_all

/-! ## C1: the result classifier -/

/-- **C1.** The Result Classifier decides the Outcome by strict precedence:
(1) on timeout, `success=false` and the error is "Process timeout." followed
by the newline-joined backlog; (2) else with no captured session id,
`success=false` with the missing-session-identifier error followed by the
joined backlog; (3) else with empty accumulated agent text, `success=false`
with the tool-call explanation followed by the joined backlog and the
session id still present; (4) else `success=true`, agent message set,
session id set, error absent. -/
theorem classifier_precedence (timedOut : Bool) (st : LoopState) (ram : Bool) :
    (timedOut = true →
      (buildResult timedOut st ram).success = false
        ∧ (buildResult timedOut st ram).error
            = some ("Process timeout. " ++ String.intercalate "\n" st.error_messages))
    ∧ (timedOut = false → st.session_id_result = none →
      (buildResult timedOut st ram).success = false
        ∧ (buildResult timedOut st ram).error
            = some ("Failed to get `SESSION_ID` from the gemini session.\n\n"
                ++ String.intercalate "\n" st.error_messages))
    ∧ (timedOut = false → st.session_id_result.isSome = true → st.agent_messages = "" →
      (buildResult timedOut st ram).success = false
        ∧ (buildResult timedOut st ram).error
            = some ("Failed to retrieve `agent_messages` data from the Gemini session. This might be due to Gemini performing a tool call. You can continue using the `SESSION_ID` to proceed with the conversation.\n\n"
                ++ String.intercalate "\n" st.error_messages)
        ∧ (buildResult timedOut st ram).session_id = st.session_id_result)
    ∧ (timedOut = false → st.session_id_result.isSome = true → st.agent_messages ≠ "" →
      (buildResult timedOut st ram).success = true
        ∧ (buildResult timedOut st ram).agent_messages = some st.agent_messages
        ∧ (buildResult timedOut st ram).session_id = st.session_id_result
        ∧ (buildResult timedOut st ram).error = none) := by
  refine ⟨fun h => ?_, fun h hn => ?_, fun h hs he => ?_, fun h hs he => ?_⟩ <;> subst h
  · cases ram <;> simp [buildResult]
  · cases ram <;> simp [buildResult, hn]
  · obtain ⟨v, hv⟩ := Option.isSome_iff_exists.mp hs
    have hE : ("" : String).isEmpty = true := rfl
    cases ram <;> simp [buildResult, hv, he, hE]
  · obtain ⟨v, hv⟩ := Option.isSome_iff_exists.mp hs
    have he2 : st.agent_messages.isEmpty = false := by
      rcases h2 : st.agent_messages.isEmpty with _ | _
      · rfl
      · exact absurd ((String.isEmpty_iff st.agent_messages).mp h2) he
    cases ram <;> simp [buildResult, hv, he2]

/-- Witness for C1 at concrete states: the success branch and the timeout
branch, evaluated on explicit inputs. -/
theorem classifier_precedence_witness :
    (buildResult false ⟨none, "Hello", some "abc", []⟩ false).success = true
      ∧ (buildResult false ⟨none, "Hello", some "abc", []⟩ false).error = none
      ∧ (buildResult true ⟨none, "", none, ["d1"]⟩ false).success = false := by
  have h1 := classifier_precedence false ⟨none, "Hello", some "abc", []⟩ false
  have h2 := classifier_precedence true ⟨none, "", none, ["d1"]⟩ false
  exact ⟨(h1.2.2.2 rfl (by decide) (by decide)).1,
         (h1.2.2.2 rfl (by decide) (by decide)).2.2.2,
         (h2.1 rfl).1⟩

/-! ## Field-level characterization of one loop iteration -/

lemma stepItem_line_ok (s : LoopState) (raw : String) (ev : GeminiEvent)
    (v : Option JsonValue) (hb : (rsTrim raw).isEmpty = false) :
    stepItem s (StreamItem.line raw (LineParse.ok ev v))
      = ({ all_messages :=
             match s.all_messages, v with
             | some msgs, some w => some (msgs ++ [w])
             | _, _ => s.all_messages
           agent_messages :=
             if ev.event_type == some "message" && ev.role == some "assistant" then
               match ev.content with
               | some c =>
                 if !strContains c DEPRECATED_PROMPT_WARNING then
                   s.agent_messages ++ c
                 else s.agent_messages
               | none => s.agent_messages
             else s.agent_messages
           session_id_result :=
             if ev.session_id.isSome then ev.session_id else s.session_id_result
           error_messages := s.error_messages }, is_turn_completed ev) := by
  rcases s with ⟨am, ag, sid, em⟩
  cases am <;> cases v <;> cases hc : ev.content <;> cases hsid : ev.session_id <;>
    simp [stepItem, hb, hc, hsid] <;> split_ifs <;> rfl

lemma stepItem_line_err (s : LoopState) (raw detail : String)
    (hb : (rsTrim raw).isEmpty = false) :
    stepItem s (StreamItem.line raw (LineParse.err detail))
      = ({ s with error_messages := pushCapped s.error_messages ("[json decode error] " ++ detail ++ ": " ++ rsTrim raw) }, false) := by
  simp [stepItem, hb]

lemma stepItem_blank (s : LoopState) (raw : String) (p : LineParse)
    (hb : (rsTrim raw).isEmpty = true) :
    stepItem s (StreamItem.line raw p) = (s, false) := by
  cases p <;> simp [stepItem, hb]

/-! ## Session identifier tracking (C6) and early stop (C3) -/

lemma lastWins_cons (d : Option String) (i : StreamItem) (rest : List StreamItem) :
    lastWins d (i :: rest)
      = lastWins (match sessionOf i with | some v => some v | none => d) rest := rfl

lemma stepItem_session (s : LoopState) (i : StreamItem) :
    ((stepItem s i).1).session_id_result
      = match sessionOf i with
        | some v => some v
        | none => s.session_id_result := by
  cases i with
  | line raw p =>
    by_cases hb : (rsTrim raw).isEmpty = true
    · rw [stepItem_blank _ _ _ hb]
      simp [sessionOf]
      cases p <;> simp [hb]
    · have hb2 : (rsTrim raw).isEmpty = false := by simpa using hb
      cases p with
      | ok ev v =>
        rw [stepItem_line_ok _ _ _ _ hb2]
        cases hsid : ev.session_id <;> simp [sessionOf, hb2, hsid]
      | err d =>
        rw [stepItem_line_err _ _ _ hb2]
        simp [sessionOf]
  | ioError m => rfl

lemma foldl_session (s : LoopState) (l : List StreamItem) :
    (List.foldl (fun t i => (stepItem t i).1) s l).session_id_result
      = lastWins s.session_id_result l := by
  induction l generalizing s with
  | nil => rfl
  | cons i rest ih =>
    rw [List.foldl_cons, ih, stepItem_session, lastWins_cons]

lemma lastWins_isSome (d : Option String) (l : List StreamItem)
    (h : d.isSome = true) : (lastWins d l).isSome = true := by
  induction l generalizing d with
  | nil => exact h
  | cons i rest ih =>
    rw [lastWins_cons]
    cases hsi : sessionOf i with
    | none => exact ih d h
    | some v => exact ih (some v) rfl

lemma lastWins_isSome_of_mem (d : Option String) (l : List StreamItem)
    (h : ∃ i ∈ l, (sessionOf i).isSome = true) :
    (lastWins d l).isSome = true := by
  induction l generalizing d with
  | nil => rcases h with ⟨i, hi, _⟩; cases hi
  | cons j rest ih =>
    rw [lastWins_cons]
    rcases h with ⟨i, hi, hs⟩
    rcases List.mem_cons.mp hi with rfl | hmem
    · cases hsj : sessionOf i with
      | none => rw [hsj] at hs; cases hs
      | some v => simp only [hsj]; exact lastWins_isSome _ _ rfl
    · exact ih _ ⟨i, hmem, hs⟩

lemma runLoop_session (init : LoopState) (items : List StreamItem) :
    (runLoop init items).session_id_result
      = lastWins init.session_id_result (processed items) := by
  rw [runLoop_eq_foldl, foldl_session]

/-- **C6.** The captured session identifier is monotone and last-write-wins:
the loop's final captured value is the last-write-wins fold of the session
identifiers carried by the processed events (events without one leave it
unchanged), and once set it is never unset by any later event. -/
theorem session_last_write_wins (init : LoopState) (items : List StreamItem) :
    (runLoop init items).session_id_result
      = lastWins init.session_id_result (processed items)
    ∧ (init.session_id_result.isSome = true →
        (runLoop init items).session_id_result.isSome = true) := by
  have h1 := runLoop_session init items
  exact ⟨h1, fun h => by rw [h1]; exact lastWins_isSome _ _ h⟩

/-- Witness for C6: a state that already captured "a" processes an event
carrying "b"; the value is overwritten, never unset. -/
theorem session_last_write_wins_witness :
    (runLoop ⟨none, "", some "a", []⟩
        [StreamItem.line "x" (LineParse.ok ⟨none, none, none, some "b", []⟩ none)]).session_id_result
      = some "b"
    ∧ (runLoop ⟨none, "", some "a", []⟩
        [StreamItem.line "x" (LineParse.ok ⟨none, none, none, some "b", []⟩ none)]).session_id_result.isSome
      = true := by
  have h := session_last_write_wins ⟨none, "", some "a", []⟩
    [StreamItem.line "x" (LineParse.ok ⟨none, none, none, some "b", []⟩ none)]
  refine ⟨?_, h.2 rfl⟩
  rw [h.1]
  decide

/-- **C3.** Early stop: once a processed line parses to an Event whose kind
is exactly "turn.completed", the loop's result is independent of everything
occurring later in the stream — no later line is parsed or contributes to
any accumulated state. -/
theorem turn_completed_early_stop (init : LoopState) (pre post : List StreamItem)
    (raw : String) (ev : GeminiEvent) (v : Option JsonValue)
    (hpre : ∀ i ∈ pre, stopsItem i = false)
    (hb : (rsTrim raw).isEmpty = false)
    (hkind : ev.event_type = some "turn.completed") :
    runLoop init (pre ++ StreamItem.line raw (LineParse.ok ev v) :: post)
      = runLoop init (pre ++ [StreamItem.line raw (LineParse.ok ev v)]) := by
  have hstop : stopsItem (StreamItem.line raw (LineParse.ok ev v)) = true := by
    simp [stopsItem, hb, is_turn_completed, hkind]
  induction pre generalizing init with
  | nil =>
    simp only [List.nil_append]
    rw [runLoop_cons, runLoop_cons, hstop]
    simp
  | cons j rest ih =>
    have hj : stopsItem j = false := hpre j (List.mem_cons_self _ _)
    simp only [List.cons_append]
    rw [runLoop_cons, runLoop_cons, hj]
    simp only [Bool.false_eq_true, if_false]
    exact ih _ (fun i hi => hpre i (List.mem_cons_of_mem _ hi))

/-- Witness for C3: after the "turn.completed" line, a stream with a
further assistant message yields the same state as one without it. -/
theorem turn_completed_early_stop_witness :
    runLoop (initState false)
        ([] ++ StreamItem.line "{}" (LineParse.ok ⟨some "turn.completed", none, none, none, []⟩ none)
          :: [StreamItem.line "{}" (LineParse.ok ⟨some "message", some "assistant", some "late", none, []⟩ none)])
      = runLoop (initState false)
        ([] ++ [StreamItem.line "{}" (LineParse.ok ⟨some "turn.completed", none, none, none, []⟩ none)]) :=
  turn_completed_early_stop (initState false) [] _ "{}"
    ⟨some "turn.completed", none, none, none, []⟩ none
    (by intro i hi; cases hi) (by decide) rfl

/-! ## Assistant-message extraction (C8) and monotone accumulation (C9) -/

/-- **C8.** For an Event whose kind is exactly "message" and role exactly
"assistant", the content is appended to the accumulated agent text iff it is
present and does not contain the deprecation-warning substring; otherwise
the accumulated text is unchanged. -/
theorem assistant_message_filter (s : LoopState) (raw : String) (ev : GeminiEvent)
    (v : Option JsonValue) (hb : (rsTrim raw).isEmpty = false)
    (htype : ev.event_type = some "message") (hrole : ev.role = some "assistant") :
    ((stepItem s (StreamItem.line raw (LineParse.ok ev v))).1).agent_messages
      = match ev.content with
        | some c =>
          if strContains c DEPRECATED_PROMPT_WARNING then s.agent_messages
          else s.agent_messages ++ c
        | none => s.agent_messages := by
  rw [stepItem_line_ok _ _ _ _ hb]
  simp only [htype, hrole, beq_self_eq_true, Bool.and_self, if_true]
  cases hc : ev.content with
  | none => simp
  | some c => by_cases hd : strContains c DEPRECATED_PROMPT_WARNING = true <;> simp [hd]

/-- Witness for C8: assistant content equal to the deprecation warning is
not appended even though the event matches the message/assistant pattern. -/
theorem assistant_message_filter_witness :
    ((stepItem (initState false)
        (StreamItem.line "x" (LineParse.ok
          ⟨some "message", some "assistant", some DEPRECATED_PROMPT_WARNING, none, []⟩
          none))).1).agent_messages = "" := by
  rw [assistant_message_filter _ _ _ _ (by decide) rfl rfl]
  decide

lemma stepItem_agent_mono (s : LoopState) (i : StreamItem) :
    ∃ t, ((stepItem s i).1).agent_messages = s.agent_messages ++ t := by
  cases i with
  | line raw p =>
    by_cases hb : (rsTrim raw).isEmpty = true
    · rw [stepItem_blank _ _ _ hb]
      exact ⟨"", (String.append_empty _).symm⟩
    · have hb2 : (rsTrim raw).isEmpty = false := by simpa using hb
      cases p with
      | ok ev v =>
        rw [stepItem_line_ok _ _ _ _ hb2]
        by_cases hm : (ev.event_type == some "message" && ev.role == some "assistant") = true
        · simp only [hm, if_true]
          cases hc : ev.content with
          | none => exact ⟨"", (String.append_empty _).symm⟩
          | some c =>
            by_cases hd : strContains c DEPRECATED_PROMPT_WARNING = true
            · simp only [hd, Bool.not_true, if_false]
              exact ⟨"", (String.append_empty _).symm⟩
            · have hd2 : strContains c DEPRECATED_PROMPT_WARNING = false := by simpa using hd
              simp only [hd2, Bool.not_false, if_true]
              exact ⟨c, rfl⟩
        · have hm2 : (ev.event_type == some "message" && ev.role == some "assistant") = false := by
            simpa using hm
          simp only [hm2, if_false]
          exact ⟨"", (String.append_empty _).symm⟩
      | err d =>
        rw [stepItem_line_err _ _ _ hb2]
        exact ⟨"", (String.append_empty _).symm⟩
  | ioError m => exact ⟨"", (String.append_empty _).symm⟩

lemma stepItem_all_mono (s : LoopState) (i : StreamItem) (l : List JsonValue)
    (hl : s.all_messages = some l) :
    ∃ l2, ((stepItem s i).1).all_messages = some (l ++ l2) := by
  cases i with
  | line raw p =>
    by_cases hb : (rsTrim raw).isEmpty = true
    · rw [stepItem_blank _ _ _ hb]
      exact ⟨[], by simp [hl]⟩
    · have hb2 : (rsTrim raw).isEmpty = false := by simpa using hb
      cases p with
      | ok ev v =>
        rw [stepItem_line_ok _ _ _ _ hb2]
        cases v with
        | none => exact ⟨[], by simp [hl]⟩
        | some w => exact ⟨[w], by simp [hl]⟩
      | err d =>
        rw [stepItem_line_err _ _ _ hb2]
        exact ⟨[], by simp [hl]⟩
  | ioError m => exact ⟨[], by simp [stepItem, hl]⟩

lemma runLoop_agent_mono (init : LoopState) (items : List StreamItem) :
    ∃ t, (runLoop init items).agent_messages = init.agent_messages ++ t := by
  induction items generalizing init with
  | nil => exact ⟨"", (String.append_empty _).symm⟩
  | cons i rest ih =>
    rw [runLoop_cons]
    by_cases h : stopsItem i = true
    · simp only [h, if_true]
      exact stepItem_agent_mono init i
    · have h2 : stopsItem i = false := by simpa using h
      simp only [h2, Bool.false_eq_true, if_false]
      obtain ⟨t1, h1⟩ := stepItem_agent_mono init i
      obtain ⟨t2, h2'⟩ := ih ((stepItem init i).1)
      exact ⟨t1 ++ t2, by rw [h2', h1, String.append_assoc]⟩

lemma runLoop_all_mono (init : LoopState) (items : List StreamItem)
    (l : List JsonValue) (hl : init.all_messages = some l) :
    ∃ l2, (runLoop init items).all_messages = some (l ++ l2) := by
  induction items generalizing init l with
  | nil => exact ⟨[], by simp [runLoop, hl]⟩
  | cons i rest ih =>
    rw [runLoop_cons]
    by_cases h : stopsItem i = true
    · simp only [h, if_true]
      exact stepItem_all_mono init i l hl
    · have h2 : stopsItem i = false := by simpa using h
      simp only [h2, Bool.false_eq_true, if_false]
      obtain ⟨l1, h1⟩ := stepItem_all_mono init i l hl
      obtain ⟨l2, h2'⟩ := ih ((stepItem init i).1) (l ++ l1) h1
      exact ⟨l1 ++ l2, by rw [h2', List.append_assoc]⟩

/-- **C9.** Accumulation is monotonic across malformed input: a malformed
line leaves the accumulated agent text, the captured session id and the
all-events buffer exactly as they were and never stops the loop, and over
any stream the agent text and the all-events buffer only ever grow by
appending (state from earlier valid lines is preserved to the end). -/
theorem malformed_lines_monotone :
    (∀ (s : LoopState) (raw detail : String),
      ((stepItem s (StreamItem.line raw (LineParse.err detail))).1).agent_messages
          = s.agent_messages
        ∧ ((stepItem s (StreamItem.line raw (LineParse.err detail))).1).session_id_result
          = s.session_id_result
        ∧ ((stepItem s (StreamItem.line raw (LineParse.err detail))).1).all_messages
          = s.all_messages
        ∧ (stepItem s (StreamItem.line raw (LineParse.err detail))).2 = false)
    ∧ (∀ (init : LoopState) (items : List StreamItem),
        (∃ t, (runLoop init items).agent_messages = init.agent_messages ++ t)
        ∧ (∀ l, init.all_messages = some l →
            ∃ l2, (runLoop init items).all_messages = some (l ++ l2))) := by
  constructor
  · intro s raw detail
    by_cases hb : (rsTrim raw).isEmpty = true
    · rw [stepItem_blank _ _ _ hb]
      exact ⟨rfl, rfl, rfl, rfl⟩
    · have hb2 : (rsTrim raw).isEmpty = false := by simpa using hb
      rw [stepItem_line_err _ _ _ hb2]
      exact ⟨rfl, rfl, rfl, rfl⟩
  · intro init items
    exact ⟨runLoop_agent_mono init items, fun l hl => runLoop_all_mono init items l hl⟩

/-- Witness for C9: a malformed line leaves accumulated state intact, and a
run started with an empty all-events buffer only appends to it. -/
theorem malformed_lines_monotone_witness :
    ((stepItem ⟨some [], "m", some "s", []⟩ (StreamItem.line "x" (LineParse.err "d"))).1).agent_messages = "m"
    ∧ (∃ l2, (runLoop (initState true) [StreamItem.line "x" (LineParse.err "d")]).all_messages
          = some ([] ++ l2)) := by
  have h := malformed_lines_monotone
  exact ⟨(h.1 ⟨some [], "m", some "s", []⟩ "x" "d").1,
         (h.2 (initState true) [StreamItem.line "x" (LineParse.err "d")]).2 [] rfl⟩

/-! ## The bounded error backlog (C2, C7) -/

/-- Whether a stream observation is an I/O fault. -/
def isIoErrorItem : StreamItem → Bool
  | StreamItem.ioError _ => true
  | _ => false

lemma pushCapped_length (q : List String) (m : String) (h : q.length ≤ 10) :
    (pushCapped q m).length ≤ 10 := by
  by_cases hc : (q ++ [m]).length > 10
  · simp only [pushCapped]
    rw [if_pos hc]
    simp only [List.length_tail, List.length_append, List.length_cons, List.length_nil]
    omega
  · simp only [pushCapped]
    rw [if_neg hc]
    simp only [List.length_append, List.length_cons, List.length_nil] at hc ⊢
    omega

lemma foldl_pushCapped (msgs : List String) : ∀ (q : List String), q.length ≤ 10 →
    List.foldl pushCapped q msgs = (q ++ msgs).drop ((q ++ msgs).length - 10) := by
  induction msgs with
  | nil =>
    intro q h
    simp [Nat.sub_eq_zero_of_le h]
  | cons m rest ih =>
    intro q h
    rw [List.foldl_cons, ih _ (pushCapped_length q m h)]
    by_cases hq : q.length + 1 ≤ 10
    · have hpm : pushCapped q m = q ++ [m] := by
        simp only [pushCapped]
        rw [if_neg]
        simp only [List.length_append, List.length_cons, List.length_nil]
        omega
      rw [hpm]
      simp [List.append_assoc]
    · have hq10 : q.length = 10 := by omega
      rcases q with _ | ⟨a, q2⟩
      · simp at hq10
      · have hq9 : q2.length = 9 := by simpa using hq10
        have hpm : pushCapped (a :: q2) m = q2 ++ [m] := by
          simp only [pushCapped]
          rw [if_pos]
          · rfl
          · simp only [List.length_append, List.length_cons, List.length_nil]
            omega
        rw [hpm]
        have e1 : (q2 ++ [m]) ++ rest = q2 ++ m :: rest := by simp
        have e2 : (a :: q2) ++ m :: rest = a :: (q2 ++ m :: rest) := rfl
        rw [e1, e2]
        have hA : (q2 ++ m :: rest).length - 10 = rest.length := by
          simp only [List.length_append, List.length_cons, hq9]
          omega
        have hB : (a :: (q2 ++ m :: rest)).length - 10 = rest.length + 1 := by
          simp only [List.length_cons, List.length_append, hq9]
          omega
        rw [hA, hB, List.drop_succ_cons]

lemma stepItem_error_le (s : LoopState) (i : StreamItem)
    (hio : isIoErrorItem i = false) (h : s.error_messages.length ≤ 10) :
    ((stepItem s i).1).error_messages.length ≤ 10 := by
  cases i with
  | line raw p =>
    by_cases hb : (rsTrim raw).isEmpty = true
    · rw [stepItem_blank _ _ _ hb]; exact h
    · have hb2 : (rsTrim raw).isEmpty = false := by simpa using hb
      cases p with
      | ok ev v => rw [stepItem_line_ok _ _ _ _ hb2]; exact h
      | err d => rw [stepItem_line_err _ _ _ hb2]; exact pushCapped_length _ _ h
  | ioError m => simp [isIoErrorItem] at hio

lemma runLoop_error_le_of_no_io (items : List StreamItem) : ∀ (init : LoopState),
    init.error_messages.length ≤ 10 →
    (∀ i ∈ items, isIoErrorItem i = false) →
    (runLoop init items).error_messages.length ≤ 10 := by
  induction items with
  | nil => intro init h _; exact h
  | cons i rest ih =>
    intro init h hio
    rw [runLoop_cons]
    have hi := hio i (List.mem_cons_self _ _)
    by_cases hs : stopsItem i = true
    · simp only [hs, if_true]
      exact stepItem_error_le _ _ hi h
    · have hs2 : stopsItem i = false := by simpa using hs
      simp only [hs2, Bool.false_eq_true, if_false]
      exact ih _ (stepItem_error_le _ _ hi h) (fun j hj => hio j (List.mem_cons_of_mem _ hj))

lemma runLoop_error_le11 (items : List StreamItem) : ∀ (init : LoopState),
    init.error_messages.length ≤ 10 →
    (runLoop init items).error_messages.length ≤ 11 := by
  induction items with
  | nil => intro init h; simpa [runLoop] using Nat.le_succ_of_le h
  | cons i rest ih =>
    intro init h
    rw [runLoop_cons]
    cases i with
    | ioError m =>
      have hs : stopsItem (StreamItem.ioError m) = true := rfl
      simp only [hs, if_true, stepItem, List.length_append, List.length_cons, List.length_nil]
      omega
    | line raw p =>
      have hio : isIoErrorItem (StreamItem.line raw p) = false := rfl
      have h10 := stepItem_error_le _ _ hio h
      by_cases hs : stopsItem (StreamItem.line raw p) = true
      · simp only [hs, if_true]
        omega
      · have hs2 : stopsItem (StreamItem.line raw p) = false := by simpa using hs
        simp only [hs2, Bool.false_eq_true, if_false]
        exact ih _ h10

/-- Ten distinct malformed (non-blank) lines. -/
def tenErrLines : List StreamItem :=
  ["a", "b", "c", "d", "e", "f", "g", "h", "i", "j"].map
    (fun r => StreamItem.line r (LineParse.err "e"))

/-- **C2 counterexample.** The backlog can hold 11 entries: after ten
parse-failure diagnostics, the I/O-fault diagnostic is appended without
evicting anything (gemini.rs lines 210-214), so the claimed 10-entry bound
fails on a concrete run. -/
theorem backlog_cap_counterexample :
    ((runLoop (initState false)
        (tenErrLines ++ [StreamItem.ioError "broken pipe"])).error_messages).length
      = 11 := by decide

/-- **C2 (amended).** Parse-failure insertion is capped FIFO at 10: folding
insertions from a backlog of at most 10 keeps exactly the last 10 entries in
insertion order (so 15 distinct diagnostics leave the last 10); runs without
an I/O fault never exceed 10 entries; and a single trailing I/O-fault
diagnostic, appended without eviction, bounds any run's backlog at 11. -/
theorem backlog_bounds :
    (∀ (q msgs : List String), q.length ≤ 10 →
        List.foldl pushCapped q msgs = (q ++ msgs).drop ((q ++ msgs).length - 10))
    ∧ (∀ (init : LoopState) (items : List StreamItem),
        init.error_messages.length ≤ 10 →
        (∀ i ∈ items, isIoErrorItem i = false) →
        (runLoop init items).error_messages.length ≤ 10)
    ∧ (∀ (init : LoopState) (items : List StreamItem),
        init.error_messages.length ≤ 10 →
        (runLoop init items).error_messages.length ≤ 11) :=
  ⟨fun q msgs h => foldl_pushCapped msgs q h,
   fun init items h hio => runLoop_error_le_of_no_io items init h hio,
   fun init items h => runLoop_error_le11 items init h⟩

/-- Witness for the amended C2: inserting 15 distinct diagnostics into an
empty backlog leaves exactly the last 10 in order. -/
theorem backlog_bounds_witness :
    List.foldl pushCapped []
        ["m01", "m02", "m03", "m04", "m05", "m06", "m07", "m08", "m09", "m10",
         "m11", "m12", "m13", "m14", "m15"]
      = ["m06", "m07", "m08", "m09", "m10", "m11", "m12", "m13", "m14", "m15"] := by
  rw [backlog_bounds.1 []
      ["m01", "m02", "m03", "m04", "m05", "m06", "m07", "m08", "m09", "m10",
       "m11", "m12", "m13", "m14", "m15"] (by decide)]
  decide

/-- **C7 counterexample.** On a concrete malformed line the appended
diagnostic is tagged "[json decode error]" (gemini.rs line 198), not the
claimed literal "[parse error]". -/
theorem parse_tag_counterexample :
    ((stepItem (initState false)
        (StreamItem.line "notjson" (LineParse.err "expected value"))).1).error_messages
      = ["[json decode error] expected value: notjson"]
    ∧ ((stepItem (initState false)
        (StreamItem.line "notjson" (LineParse.err "expected value"))).1).error_messages
      ≠ ["[parse error] expected value: notjson"] := by
  constructor <;> decide

/-- **C7 (amended).** For every non-blank line that fails to parse, the
dispatcher inserts into the ErrorBacklog a diagnostic formatted exactly as
"[json decode error] <detail>: <line>" (with the trimmed line), then
continues with the subsequent lines; the malformed line never stops the
loop. -/
theorem parse_diag_format (s : LoopState) (raw detail : String)
    (rest : List StreamItem) (hb : (rsTrim raw).isEmpty = false) :
    ((stepItem s (StreamItem.line raw (LineParse.err detail))).1).error_messages
        = pushCapped s.error_messages
            ("[json decode error] " ++ detail ++ ": " ++ rsTrim raw)
    ∧ (stepItem s (StreamItem.line raw (LineParse.err detail))).2 = false
    ∧ runLoop s (StreamItem.line raw (LineParse.err detail) :: rest)
        = runLoop ((stepItem s (StreamItem.line raw (LineParse.err detail))).1) rest := by
  have hs : stopsItem (StreamItem.line raw (LineParse.err detail)) = false := by
    simp [stopsItem, hb]
  refine ⟨?_, ?_, ?_⟩
  · rw [stepItem_line_err _ _ _ hb]
  · rw [stepItem_line_err _ _ _ hb]
  · rw [runLoop_cons, hs]
    simp

/-- Witness for the amended C7: a concrete malformed line followed by a
valid assistant line; the diagnostic is recorded and the later line is still
processed. -/
theorem parse_diag_format_witness :
    ((stepItem (initState false) (StreamItem.line "oops" (LineParse.err "bad"))).1).error_messages
      = pushCapped [] ("[json decode error] " ++ "bad" ++ ": " ++ rsTrim "oops")
    ∧ runLoop (initState false)
        (StreamItem.line "oops" (LineParse.err "bad")
          :: [StreamItem.line "x" (LineParse.ok ⟨some "message", some "assistant", some "Hi", none, []⟩ none)])
      = runLoop ((stepItem (initState false) (StreamItem.line "oops" (LineParse.err "bad"))).1)
        [StreamItem.line "x" (LineParse.ok ⟨some "message", some "assistant", some "Hi", none, []⟩ none)] := by
  have h := parse_diag_format (initState false) "oops" "bad"
    [StreamItem.line "x" (LineParse.ok ⟨some "message", some "assistant", some "Hi", none, []⟩ none)]
    (by decide)
  exact ⟨h.1, h.2.2⟩

/-! ## Empty-string session identifiers (C10) -/

/-- **C10 counterexample.** A processed Event carries the empty-string
session id and no timeout occurs, yet the Outcome does not carry the empty
string: a later event overwrites it (last-write-wins), refuting the claim's
"the Outcome carries the empty string as its session id". -/
theorem empty_session_counterexample :
    sessionOf (StreamItem.line "a" (LineParse.ok ⟨none, none, none, some "", []⟩ none)) = some ""
    ∧ StreamItem.line "a" (LineParse.ok ⟨none, none, none, some "", []⟩ none)
        ∈ processed
            [StreamItem.line "a" (LineParse.ok ⟨none, none, none, some "", []⟩ none),
             StreamItem.line "b" (LineParse.ok ⟨none, none, none, some "abc", []⟩ none)]
    ∧ (buildResult false
        (runLoop (initState false)
          [StreamItem.line "a" (LineParse.ok ⟨none, none, none, some "", []⟩ none),
           StreamItem.line "b" (LineParse.ok ⟨none, none, none, some "abc", []⟩ none)])
        false).session_id = some "abc" := by
  refine ⟨by decide, by decide, by decide⟩

/-- **C10 (amended).** An empty-string session identifier counts as
captured: if some processed Event carries `session_id = some ""` and no
timeout occurred, the classifier does not take the missing-session branch —
the captured value is Some, the Outcome's session id equals the captured
(last-write-wins) value and is emitted under the wire key "SESSION_ID", and
success is decided solely by whether agent text was accumulated; the
Outcome's session id is the empty string exactly when "" is the last
carried session identifier. -/
theorem empty_session_counts (init : LoopState) (items : List StreamItem)
    (ram : Bool)
    (h : ∃ i ∈ processed items, sessionOf i = some "") :
    (runLoop init items).session_id_result.isSome = true
    ∧ (buildResult false (runLoop init items) ram).session_id
        = (runLoop init items).session_id_result
    ∧ (buildResult false (runLoop init items) ram).success
        = !(runLoop init items).agent_messages.isEmpty
    ∧ "SESSION_ID" ∈ serializedKeys (buildResult false (runLoop init items) ram)
    ∧ (lastWins init.session_id_result (processed items) = some "" →
        (buildResult false (runLoop init items) ram).session_id = some "") := by
  have hsome : (runLoop init items).session_id_result.isSome = true := by
    rw [runLoop_session init items]
    exact lastWins_isSome_of_mem _ _
      (by rcases h with ⟨i, hi, he⟩; exact ⟨i, hi, by rw [he]; rfl⟩)
  obtain ⟨v, hv⟩ := Option.isSome_iff_exists.mp hsome
  have hsid : (buildResult false (runLoop init items) ram).session_id
      = (runLoop init items).session_id_result := by
    cases ram <;> simp only [buildResult] <;> split_ifs <;> simp
  refine ⟨hsome, hsid, ?_, ?_, ?_⟩
  · by_cases he : (runLoop init items).agent_messages.isEmpty = true
    · cases ram <;> simp [buildResult, hv, he]
    · have he2 : (runLoop init items).agent_messages.isEmpty = false := by simpa using he
      cases ram <;> simp [buildResult, hv, he2]
  · rw [serializedKeys.eq_def, hsid, hv]
    simp
  · intro hlast
    rw [hsid, runLoop_session init items, hlast]

/-- Witness for the amended C10: a single event carrying the empty-string
session id and an assistant message; the run succeeds with session id ""
on the wire. -/
theorem empty_session_counts_witness :
    (runLoop (initState false)
        [StreamItem.line "a" (LineParse.ok ⟨some "message", some "assistant", some "Hi", some "", []⟩ none)]).session_id_result.isSome
      = true
    ∧ (buildResult false
        (runLoop (initState false)
          [StreamItem.line "a" (LineParse.ok ⟨some "message", some "assistant", some "Hi", some "", []⟩ none)])
        false).session_id = some ""
    ∧ (buildResult false
        (runLoop (initState false)
          [StreamItem.line "a" (LineParse.ok ⟨some "message", some "assistant", some "Hi", some "", []⟩ none)])
        false).success = true
    ∧ "SESSION_ID" ∈ serializedKeys (buildResult false
        (runLoop (initState false)
          [StreamItem.line "a" (LineParse.ok ⟨some "message", some "assistant", some "Hi", some "", []⟩ none)])
        false) := by
  have h := empty_session_counts (initState false)
    [StreamItem.line "a" (LineParse.ok ⟨some "message", some "assistant", some "Hi", some "", []⟩ none)]
    false
    ⟨StreamItem.line "a" (LineParse.ok ⟨some "message", some "assistant", some "Hi", some "", []⟩ none),
     by decide, by decide⟩
  refine ⟨h.1, h.2.2.2.2 (by decide), ?_, h.2.2.2.1⟩
  rw [h.2.2.1]
  decide

end GeminiMcp
